import Mathlib

/-!
Verification of `src/assistant_bot.py`, a command-line contact manager.

The embedding models:
- Python string primitives used by the program (`str.isdigit`, `str.strip`,
  `str.lower`, `str.split` with no arguments) over Lean `String`/`List Char`,
  restricted to the ASCII character classes (`Char.isDigit`,
  `Char.isWhitespace`, `Char.toLower`);
- the value objects `Name` and `Phone` (validated on construction, raising
  `ValueError` on bad input);
- `Record` (a name plus a list of phone strings) and `AddressBook`
  (an association list keyed by name, keys unique as in a Python dict);
- the live command loop: `parse_input`, the `input_error` decorator,
  `handle_command` with the handler table from `main`, and the individual
  handlers `add_contact`, `change_contact`, `show_phone`,
  `show_all_contacts`, each operating on the flat name-to-phone map.

Python exceptions are modelled with `Except`; printing is modelled as a list
of output events; `sys.exit` (a `SystemExit`, which the decorator's
`except Exception` does not catch) is modelled as a distinguished
`StepResult.exit`.  Exact message wording is abbreviated to the parts the
messages are built from (quoting around interpolated values is omitted);
the error-class structure of `input_error` is kept exactly.
-/

set_option autoImplicit false

namespace AssistantBot

/-- Kinds of Python exception raised by the program, with the payload the
code puts in the message (`ValueError`/`TypeError` carry their message
string; `KeyError` carries the missing name; `IndexError` carries its
message). -/
inductive PyError where
  | valueError (msg : String)
  | keyError (name : String)
  | typeError (msg : String)
  | indexError (msg : String)
deriving DecidableEq, Repr

/-- Python `str.isdigit` (ASCII restriction): non-empty and every character
a decimal digit. -/
def pyIsdigit (s : String) : Bool :=
  !s.data.isEmpty && s.data.all Char.isDigit

/-- Python `str.strip()` on a character list: drop leading and trailing
whitespace. -/
def pyStripList (l : List Char) : List Char :=
  ((l.dropWhile Char.isWhitespace).reverse.dropWhile Char.isWhitespace).reverse

/-- Python `str.strip()`. -/
def pyStrip (s : String) : String :=
  ⟨pyStripList s.data⟩

/-- Python `str.lower` (ASCII restriction). -/
def pyLower (s : String) : String :=
  ⟨s.data.map Char.toLower⟩

/-- `Phone.__init__`: succeeds (storing the value) when
`value.isdigit() and len(value.strip()) == 10`, otherwise raises
`ValueError("Phone number must be 10 digits")`. -/
def Phone.init (value : String) : Except PyError String :=
  if !pyIsdigit value || (pyStrip value).length ≠ 10 then
    .error (.valueError "Phone number must be 10 digits")
  else
    .ok value

/-- `Name.__init__`: raises `ValueError` on the empty string, else stores
the value. -/
def Name.init (value : String) : Except PyError String :=
  if value = "" then
    .error (.valueError "Name cannot be empty.")
  else
    .ok value

/-- A decimal digit is not whitespace. -/
theorem isDigit_isWhitespace_false (c : Char) (h : c.isDigit = true) :
    c.isWhitespace = false := by
  cases hw : c.isWhitespace with
  | false => rfl
  | true =>
    exfalso
    simp only [Char.isWhitespace, Bool.or_eq_true, decide_eq_true_eq] at hw
    rcases hw with ((hc | hc) | hc) | hc <;> subst hc <;> revert h <;> decide

/-- `dropWhile isWhitespace` is the identity on an all-digit list. -/
theorem dropWhile_ws_all_digit (l : List Char) (h : l.all Char.isDigit = true) :
    l.dropWhile Char.isWhitespace = l := by
  cases l with
  | nil => rfl
  | cons c t =>
    simp only [List.all_cons, Bool.and_eq_true] at h
    simp [List.dropWhile_cons, isDigit_isWhitespace_false c h.1]

/-- `pyStrip` is the identity on an all-digit string. -/
theorem pyStrip_all_digit (s : String) (h : s.data.all Char.isDigit = true) :
    pyStrip s = s := by
  have hrev : s.data.reverse.all Char.isDigit = true := by
    simp only [List.all_eq_true] at h ⊢
    exact fun c hc => h c (List.mem_reverse.mp hc)
  cases s with
  | mk data =>
    simp only [pyStrip, pyStripList]
    rw [dropWhile_ws_all_digit _ h, dropWhile_ws_all_digit _ hrev, List.reverse_reverse]

/-- `dropWhile` never lengthens a list. -/
theorem dropWhile_length_le (p : Char → Bool) (l : List Char) :
    (l.dropWhile p).length ≤ l.length := by
  induction l with
  | nil => simp
  | cons c t ih =>
    rw [List.dropWhile_cons]
    by_cases hp : p c
    · simp only [hp, if_true, List.length_cons]
      omega
    · simp [hp]

/-- Python `str.split()` with no arguments on a character list: maximal runs
of non-whitespace characters, empty runs discarded. -/
def splitWords (l : List Char) : List String :=
  match l with
  | [] => []
  | c :: rest =>
    if c.isWhitespace then splitWords rest
    else
      ⟨c :: rest.takeWhile (fun x => !x.isWhitespace)⟩ ::
        splitWords (rest.dropWhile (fun x => !x.isWhitespace))
termination_by l.length
decreasing_by
  all_goals simp only [List.length_cons]
  · omega
  · have := dropWhile_length_le (fun x => !x.isWhitespace) rest
    omega

/-- `str.split()` on a `String`. -/
def pySplit (s : String) : List String :=
  splitWords s.data

/-- `parse_input`: lower-case the line, split on whitespace; the first token
(or `""` when there is none) is the command, the rest are the arguments. -/
def parse_input (userInput : String) : String × List String :=
  let parts := pySplit (pyLower userInput)
  (parts.headD "", parts.tail)

/-- The flat name-to-phone map driving the live loop (a Python dict:
insertion-ordered association list, keys unique). -/
abbrev Contacts := List (String × String)

/-- Python `name in contacts` / `contacts.get(name)`: first binding of the
key, if any. -/
def dictGet (m : Contacts) (k : String) : Option String :=
  match m with
  | [] => none
  | (k1, v1) :: rest => if k1 = k then some v1 else dictGet rest k

/-- Python `contacts[name] = phone`: overwrite in place if the key exists,
else append a new binding (insertion order). -/
def dictSet (m : Contacts) (k v : String) : Contacts :=
  match m with
  | [] => [(k, v)]
  | (k1, v1) :: rest => if k1 = k then (k, v) :: rest else (k1, v1) :: dictSet rest k v

/-- Message classes of the `input_error` decorator, one per `except` branch. -/
inductive MsgClass where
  | incorrectCommand
  | incorrectArguments
  | contactNotFound
  | indexOutOfRange
  | unexpected
deriving DecidableEq, Repr

/-- The `except` branch (message class) `input_error` selects for each
exception kind. -/
def errClass : PyError → MsgClass
  | .typeError _ => .incorrectCommand
  | .valueError _ => .incorrectArguments
  | .keyError _ => .contactNotFound
  | .indexError _ => .indexOutOfRange

/-- The message payload `input_error` prints after the class header. -/
def errDetail : PyError → String
  | .typeError m => m
  | .valueError m => m
  | .keyError n => n ++ " not found."
  | .indexError m => m

/-- One printed line / printed block of the program, abstracted to the data
it interpolates. -/
inductive Out where
  | errorMsg (cls : MsgClass) (detail : String)
  | helpText
  | greeting
  | contactAdded (name phone : String)
  | contactExists (name phone : String)
  | contactConflict (name currentPhone : String)
  | phoneChanged (name oldPhone newPhone : String)
  | noChanges (name phone : String)
  | phoneShown (name phone : String)
  | contactLine (name phone : String)
  | farewell
deriving DecidableEq, Repr

/-- The `input_error` decorator applied to a handler result: a normal
return passes through; an exception is converted to its error message (plus
re-printed help for `TypeError`), leaving the contacts map as the handler
left it (every handler below raises before mutating, so that is the
original map). -/
def inputError (contacts : Contacts) (r : Except PyError (Contacts × List Out)) :
    Contacts × List Out :=
  match r with
  | .ok x => x
  | .error e =>
    (contacts,
      [.errorMsg (errClass e) (errDetail e)] ++
        if errClass e = .incorrectCommand then [.helpText] else [])

/-- Body of `add_contact` (before the decorator): arity check, then insert /
already-exists / conflict. -/
def add_contact_raw (contacts : Contacts) (args : List String) :
    Except PyError (Contacts × List Out) :=
  match args with
  | [name, phone] =>
    match dictGet contacts name with
    | some currentPhone =>
      if currentPhone = phone then
        .ok (contacts, [.contactExists name phone])
      else
        .ok (contacts, [.contactConflict name currentPhone])
    | none => .ok (dictSet contacts name phone, [.contactAdded name phone])
  | _ => .error (.valueError "Usage: add [name] [phone number]")

/-- `add_contact` with its `input_error` decorator. -/
def add_contact (contacts : Contacts) (args : List String) : Contacts × List Out :=
  inputError contacts (add_contact_raw contacts args)

/-- Body of `change_contact` (before the decorator). -/
def change_contact_raw (contacts : Contacts) (args : List String) :
    Except PyError (Contacts × List Out) :=
  match args with
  | [name, newPhone] =>
    match dictGet contacts name with
    | some currentPhone =>
      if newPhone = currentPhone then
        .ok (contacts, [.noChanges name newPhone])
      else
        .ok (dictSet contacts name newPhone, [.phoneChanged name currentPhone newPhone])
    | none => .error (.keyError name)
  | _ => .error (.valueError "Usage: change [name] [new phone number]")

/-- `change_contact` with its `input_error` decorator. -/
def change_contact (contacts : Contacts) (args : List String) : Contacts × List Out :=
  inputError contacts (change_contact_raw contacts args)

/-- Body of `show_phone` (before the decorator). -/
def show_phone_raw (contacts : Contacts) (args : List String) :
    Except PyError (Contacts × List Out) :=
  match args with
  | [name] =>
    match dictGet contacts name with
    | some phone => .ok (contacts, [.phoneShown name phone])
    | none => .error (.keyError name)
  | _ => .error (.valueError "Usage: phone [name]")

/-- `show_phone` with its `input_error` decorator. -/
def show_phone (contacts : Contacts) (args : List String) : Contacts × List Out :=
  inputError contacts (show_phone_raw contacts args)

/-- Body of `show_all_contacts` (before the decorator): print every pair,
or raise `IndexError("No contacts available.")` on an empty map. -/
def show_all_contacts_raw (contacts : Contacts) :
    Except PyError (Contacts × List Out) :=
  if contacts ≠ [] then
    .ok (contacts, contacts.map fun p => .contactLine p.1 p.2)
  else
    .error (.indexError "No contacts available.")

/-- `show_all_contacts` with its `input_error` decorator. -/
def show_all_contacts (contacts : Contacts) : Contacts × List Out :=
  inputError contacts (show_all_contacts_raw contacts)

/-- Result of one loop iteration: continue with a new map and output, or
terminate via `sys.exit` (a `SystemExit`, uncaught by `except Exception`). -/
inductive StepResult where
  | continue (contacts : Contacts) (out : List Out)
  | exit (out : List Out)
deriving DecidableEq, Repr

/-- The commands bound in `main`'s `command_handlers` table. -/
def knownCommands : List String :=
  ["hello", "add", "change", "phone", "all", "close", "exit", "quit", "help"]

/-- The text of the `TypeError` raised for an unrecognized command. -/
def unknownCommandMsg (command : String) : String :=
  "Unknown command " ++ command

/-- `handle_command` (decorated) with the handler table of `main`: look the
command up; known commands run their (already decorated) handlers; unknown
commands raise `TypeError`, which this function's own `input_error` wrapper
turns into the incorrect-command message followed by help. -/
def handle_command (contacts : Contacts) (command : String) (args : List String) :
    StepResult :=
  if command = "hello" then
    .continue contacts [.greeting]
  else if command = "add" then
    let r := add_contact contacts args
    .continue r.1 r.2
  else if command = "change" then
    let r := change_contact contacts args
    .continue r.1 r.2
  else if command = "phone" then
    let r := show_phone contacts args
    .continue r.1 r.2
  else if command = "all" then
    let r := show_all_contacts contacts
    .continue r.1 r.2
  else if command = "close" ∨ command = "exit" ∨ command = "quit" then
    .exit [.farewell]
  else if command = "help" then
    .continue contacts [.helpText]
  else
    let r := inputError contacts (.error (.typeError (unknownCommandMsg command)))
    .continue r.1 r.2

/-- One iteration of `main`'s loop: strip the raw line, parse it, dispatch. -/
def processLine (contacts : Contacts) (line : String) : StepResult :=
  let p := parse_input (pyStrip line)
  handle_command contacts p.1 p.2

/-! ### Helper lemmas for `Phone.init` -/

/-- The validity test of `Phone.__init__` passes exactly on 10-character
all-digit strings. -/
theorem phone_cond_false_iff (s : String) :
    (!pyIsdigit s || decide ((pyStrip s).length ≠ 10)) = false ↔
      s.length = 10 ∧ s.data.all Char.isDigit = true := by
  cases s with
  | mk data =>
    rw [Bool.or_eq_false_iff]
    constructor
    · rintro ⟨h1, h2⟩
      have hdig : pyIsdigit ⟨data⟩ = true := by
        cases hps : pyIsdigit ⟨data⟩
        · rw [hps] at h1; simp at h1
        · rfl
      have hall : data.all Char.isDigit = true := by
        unfold pyIsdigit at hdig
        exact ((Bool.and_eq_true _ _).mp hdig).2
      have hstrip : pyStrip ⟨data⟩ = ⟨data⟩ := pyStrip_all_digit ⟨data⟩ hall
      have hlen : (pyStrip (⟨data⟩ : String)).length = 10 := by
        simpa using h2
      rw [hstrip] at hlen
      exact ⟨hlen, hall⟩
    · rintro ⟨hlen, hall⟩
      have hne : data ≠ [] := by
        intro hnil
        subst hnil
        simp [String.length] at hlen
      refine ⟨?_, ?_⟩
      · unfold pyIsdigit
        simp [hne, hall]
      · rw [pyStrip_all_digit ⟨data⟩ hall]
        simp [hlen]

/-- C1: `Phone` construction succeeds (returning the stored value) exactly on
strings of length 10 whose characters are all decimal digits, and on every
other string it fails with the `ValueError` "Phone number must be 10
digits". -/
theorem phone_init_spec (s : String) :
    (Phone.init s = .ok s ↔ s.length = 10 ∧ s.data.all Char.isDigit = true) ∧
    (¬(s.length = 10 ∧ s.data.all Char.isDigit = true) →
      Phone.init s = .error (.valueError "Phone number must be 10 digits")) := by
  unfold Phone.init
  constructor
  · constructor
    · intro h
      by_cases hc : (!pyIsdigit s || decide ((pyStrip s).length ≠ 10)) = true
      · rw [if_pos hc] at h
        exact absurd h (by simp)
      · exact (phone_cond_false_iff s).mp (Bool.not_eq_true _ ▸ Bool.of_not_eq_true hc)
    · intro h
      have hc := (phone_cond_false_iff s).mpr h
      rw [hc]
      simp
  · intro h
    have hc : (!pyIsdigit s || decide ((pyStrip s).length ≠ 10)) = true := by
      cases hv : (!pyIsdigit s || decide ((pyStrip s).length ≠ 10))
      · exact absurd ((phone_cond_false_iff s).mp hv) h
      · rfl
    rw [hc]
    simp

/-- Witness for C1 at concrete inputs: "1234567890" is accepted,
"123abc7890" is rejected. -/
theorem phone_init_spec_witness :
    Phone.init "1234567890" = .ok "1234567890" ∧
    Phone.init "123abc7890" = .error (.valueError "Phone number must be 10 digits") :=
  ⟨(phone_init_spec "1234567890").1.mpr (by decide),
   (phone_init_spec "123abc7890").2 (by decide)⟩

/-! ### Dict lemmas -/

/-- Setting an absent key appends the new binding. -/
theorem dictSet_absent (m : Contacts) (k v : String) (h : dictGet m k = none) :
    dictSet m k v = m ++ [(k, v)] := by
  induction m with
  | nil => rfl
  | cons p rest ih =>
    obtain ⟨k1, v1⟩ := p
    unfold dictGet at h
    by_cases hk : k1 = k
    · rw [if_pos hk] at h; exact absurd h (by simp)
    · rw [if_neg hk] at h
      simp [dictSet, hk, ih h]

/-- After `dictSet m k v`, looking up `k` yields `v`. -/
theorem dictGet_dictSet_self (m : Contacts) (k v : String) :
    dictGet (dictSet m k v) k = some v := by
  induction m with
  | nil => simp [dictSet, dictGet]
  | cons p rest ih =>
    obtain ⟨k1, v1⟩ := p
    by_cases hk : k1 = k
    · simp [dictSet, hk, dictGet]
    · simp [dictSet, hk, dictGet, ih]

/-- `dictSet m k v` leaves every other key unchanged. -/
theorem dictGet_dictSet_other (m : Contacts) (k v k2 : String) (h : k2 ≠ k) :
    dictGet (dictSet m k v) k2 = dictGet m k2 := by
  induction m with
  | nil => simp [dictSet, dictGet, Ne.symm h]
  | cons p rest ih =>
    obtain ⟨k1, v1⟩ := p
    by_cases hk : k1 = k
    · subst hk
      simp [dictSet, dictGet, Ne.symm h]
    · simp [dictSet, hk, dictGet, ih]

/-! ### Claims about the live-loop handlers -/

/-- C2: the `add` handler on exactly two arguments: inserts when the name is
absent; reports already-exists and leaves the map exactly as it was when the
name is present with the same phone; reports the conflict (suggesting
`change`) and leaves the map exactly as it was when the name is present with
a different phone. -/
theorem add_contact_spec (contacts : Contacts) (name phone : String) :
    (dictGet contacts name = none →
      add_contact contacts [name, phone] =
        (contacts ++ [(name, phone)], [.contactAdded name phone])) ∧
    (dictGet contacts name = some phone →
      add_contact contacts [name, phone] = (contacts, [.contactExists name phone])) ∧
    (∀ currentPhone, dictGet contacts name = some currentPhone → currentPhone ≠ phone →
      add_contact contacts [name, phone] = (contacts, [.contactConflict name currentPhone])) := by
  refine ⟨?_, ?_, ?_⟩
  · intro h
    simp [add_contact, add_contact_raw, inputError, h, dictSet_absent contacts name phone h]
  · intro h
    simp [add_contact, add_contact_raw, inputError, h]
  · intro currentPhone h hne
    simp [add_contact, add_contact_raw, inputError, h, hne]

/-- Witness for C2 at concrete inputs: fresh insert, duplicate add,
conflicting add. -/
theorem add_contact_spec_witness :
    add_contact [] ["alice", "1234567890"] =
      ([("alice", "1234567890")], [.contactAdded "alice" "1234567890"]) ∧
    add_contact [("alice", "1234567890")] ["alice", "1234567890"] =
      ([("alice", "1234567890")], [.contactExists "alice" "1234567890"]) ∧
    add_contact [("alice", "1234567890")] ["alice", "9999999999"] =
      ([("alice", "1234567890")], [.contactConflict "alice" "1234567890"]) :=
  ⟨by simpa using (add_contact_spec [] "alice" "1234567890").1 (by decide),
   (add_contact_spec [("alice", "1234567890")] "alice" "1234567890").2.1 (by decide),
   (add_contact_spec [("alice", "1234567890")] "alice" "9999999999").2.2
     "1234567890" (by decide) (by decide)⟩

/-- C3: the `change` handler body on exactly two arguments: raises the
not-found `KeyError` when the name is absent; reports a no-op and leaves the
map unchanged when the new phone equals the stored one; otherwise updates the
stored phone for the name (other keys untouched). -/
theorem change_contact_spec (contacts : Contacts) (name newPhone : String) :
    (dictGet contacts name = none →
      change_contact_raw contacts [name, newPhone] = .error (.keyError name)) ∧
    (dictGet contacts name = some newPhone →
      change_contact_raw contacts [name, newPhone] =
        .ok (contacts, [.noChanges name newPhone])) ∧
    (∀ currentPhone, dictGet contacts name = some currentPhone → newPhone ≠ currentPhone →
      change_contact_raw contacts [name, newPhone] =
        .ok (dictSet contacts name newPhone,
          [.phoneChanged name currentPhone newPhone]) ∧
      dictGet (dictSet contacts name newPhone) name = some newPhone ∧
      ∀ k, k ≠ name → dictGet (dictSet contacts name newPhone) k = dictGet contacts k) := by
  refine ⟨?_, ?_, ?_⟩
  · intro h
    simp [change_contact_raw, h]
  · intro h
    simp [change_contact_raw, h]
  · intro currentPhone h hne
    refine ⟨by simp [change_contact_raw, h, hne], dictGet_dictSet_self _ _ _, ?_⟩
    intro k hk
    exact dictGet_dictSet_other contacts name newPhone k hk

/-- Witness for C3 at concrete inputs: absent name, same phone, new phone. -/
theorem change_contact_spec_witness :
    change_contact_raw [] ["bob", "1234567890"] = .error (.keyError "bob") ∧
    change_contact_raw [("bob", "1234567890")] ["bob", "1234567890"] =
      .ok ([("bob", "1234567890")], [.noChanges "bob" "1234567890"]) ∧
    change_contact_raw [("bob", "1234567890")] ["bob", "9999999999"] =
      .ok ([("bob", "9999999999")], [.phoneChanged "bob" "1234567890" "9999999999"]) :=
  ⟨(change_contact_spec [] "bob" "1234567890").1 (by decide),
   (change_contact_spec [("bob", "1234567890")] "bob" "1234567890").2.1 (by decide),
   by simpa using ((change_contact_spec [("bob", "1234567890")] "bob" "9999999999").2.2
     "1234567890" (by decide) (by decide)).1⟩

/-- C5: `all` on the empty map raises the empty-collection `IndexError`;
after one successful `add` on an initially empty map it lists exactly that
one name/phone pair. -/
theorem show_all_spec :
    show_all_contacts_raw [] = .error (.indexError "No contacts available.") ∧
    ∀ name phone : String,
      add_contact [] [name, phone] = ([(name, phone)], [.contactAdded name phone]) ∧
      show_all_contacts_raw [(name, phone)] =
        .ok ([(name, phone)], [.contactLine name phone]) := by
  refine ⟨by simp [show_all_contacts_raw], fun name phone => ⟨?_, ?_⟩⟩
  · simp [add_contact, add_contact_raw, inputError, dictGet, dictSet]
  · simp [show_all_contacts_raw]

/-- C9: neither live-loop mutation validates the phone token: `add` stores
any second token for a fresh name and `change` stores any second token for
an existing one, while the 10-digit check lives only in `Phone.init`, which
rejects such tokens. -/
theorem no_phone_validation (contacts : Contacts) (name phone : String) :
    (dictGet contacts name = none →
      add_contact contacts [name, phone] =
        (contacts ++ [(name, phone)], [.contactAdded name phone])) ∧
    (∀ currentPhone, dictGet contacts name = some currentPhone → phone ≠ currentPhone →
      dictGet (change_contact contacts [name, phone]).1 name = some phone) ∧
    (Phone.init "abc").isOk = false ∧
    (Phone.init "123").isOk = false ∧
    add_contact [] [name, "abc"] = ([(name, "abc")], [.contactAdded name "abc"]) := by
  refine ⟨?_, ?_, by decide, by decide, ?_⟩
  · intro h
    simp [add_contact, add_contact_raw, inputError, h, dictSet_absent contacts name phone h]
  · intro currentPhone h hne
    simp [change_contact, change_contact_raw, inputError, h, hne,
      dictGet_dictSet_self]
  · simp [add_contact, add_contact_raw, inputError, dictGet, dictSet]

/-- Witness for C9: the non-phone tokens "abc" and "123" are accepted by the
live-loop `add` and `change`. -/
theorem no_phone_validation_witness :
    add_contact [] ["carol", "abc"] = ([("carol", "abc")], [.contactAdded "carol" "abc"]) ∧
    dictGet (change_contact [("carol", "abc")] ["carol", "123"]).1 "carol" = some "123" :=
  ⟨by simpa using (no_phone_validation [] "carol" "abc").1 (by decide),
   (no_phone_validation [("carol", "abc")] "carol" "123").2.1 "abc" (by decide) (by decide)⟩

/-! ### C4: unknown-command handling versus wrong-arity handling -/

/-- C4 counterexample: an unknown command ("foo") is reported through the
`TypeError` branch (incorrect-command class, help re-printed), while a
wrong-arity `add` is reported through the `ValueError` branch
(incorrect-arguments class, no help): the two message classes are NOT the
same, refuting the claim that they coincide. -/
theorem unknown_command_class_counterexample :
    handle_command [] "foo" [] =
      .continue [] [.errorMsg .incorrectCommand (unknownCommandMsg "foo"), .helpText] ∧
    handle_command [] "add" ["bob"] =
      .continue [] [.errorMsg .incorrectArguments "Usage: add [name] [phone number]"] ∧
    MsgClass.incorrectCommand ≠ MsgClass.incorrectArguments := by
  refine ⟨by decide, by decide, by decide⟩

/-- Dispatch terminates the session only on the three exit commands; every
other input, whatever errors its handler raised, continues the loop. -/
theorem handle_command_exit_iff (contacts : Contacts) (command : String)
    (args : List String) :
    (∃ out, handle_command contacts command args = .exit out) ↔
      (command = "close" ∨ command = "exit" ∨ command = "quit") := by
  constructor
  · rintro ⟨out, hout⟩
    unfold handle_command at hout
    repeat' split at hout
    all_goals simp_all
  · rintro (rfl | rfl | rfl) <;> exact ⟨[.farewell], by simp [handle_command]⟩

/-- C4 (amended): every line whose first token is not a recognized command
is reported through the decorator's `TypeError` branch — the
incorrect-command message class, which is distinct from the
incorrect-arguments class used for wrong-arity errors — followed by the
re-printed help text, with the contacts map unchanged; and dispatch always
returns, the session terminating only through the deliberate
close/exit/quit path. -/
theorem unknown_command_spec (contacts : Contacts) (command : String)
    (args : List String) (h : command ∉ knownCommands) :
    handle_command contacts command args =
      .continue contacts
        [.errorMsg .incorrectCommand (unknownCommandMsg command), .helpText] ∧
    ∀ (c : Contacts) (cmd : String) (args2 : List String),
      (∃ out, handle_command c cmd args2 = .exit out) ↔
        (cmd = "close" ∨ cmd = "exit" ∨ cmd = "quit") := by
  refine ⟨?_, fun c cmd args2 => handle_command_exit_iff c cmd args2⟩
  simp only [knownCommands, List.mem_cons, List.not_mem_nil, or_false, not_or] at h
  obtain ⟨h1, h2, h3, h4, h5, h6, h7, h8, h9⟩ := h
  simp [handle_command, h1, h2, h3, h4, h5, h6, h7, h8, h9, inputError, errClass, errDetail]

/-- Witness for C4's amended theorem at the unknown command "foo". -/
theorem unknown_command_spec_witness :
    handle_command [] "foo" ["x"] =
      .continue [] [.errorMsg .incorrectCommand (unknownCommandMsg "foo"), .helpText] ∧
    (∃ out, handle_command [] "exit" [] = .exit out) :=
  ⟨(unknown_command_spec [] "foo" ["x"] (by decide)).1,
   ((unknown_command_spec [] "foo" ["x"] (by decide)).2 [] "exit" []).mpr (by decide)⟩

/-! ### C7: `Record` phone-list operations -/

/-- `Record.remove_phone` on the stored phone values: the loop removes the
first phone whose value equals the argument, then breaks; silent no-op when
none matches. -/
def remove_phone (phones : List String) (phone : String) : List String :=
  match phones with
  | [] => []
  | p :: rest => if p = phone then rest else p :: remove_phone rest phone

/-- `Record.add_phone`: construct a `Phone` from the argument (validating
it) and append its value; the `ValueError` of a failed validation
propagates. -/
def add_phone (phones : List String) (phone : String) :
    Except PyError (List String) :=
  match Phone.init phone with
  | .ok v => .ok (phones ++ [v])
  | .error e => .error e

/-- `Record.edit_phone`: `remove_phone(old)` followed by `add_phone(new)`. -/
def edit_phone (phones : List String) (oldPhone newPhone : String) :
    Except PyError (List String) :=
  add_phone (remove_phone phones oldPhone) newPhone

/-- Removing an absent phone is a no-op. -/
theorem remove_phone_not_mem (phones : List String) (phone : String)
    (h : phone ∉ phones) : remove_phone phones phone = phones := by
  induction phones with
  | nil => rfl
  | cons p rest ih =>
    simp only [List.mem_cons, not_or] at h
    simp [remove_phone, Ne.symm h.1, ih h.2]

/-- C7: `edit_phone(old, new)` produces exactly the result of
`remove_phone(old)` followed by `add_phone(new)`; in particular, when `old`
is absent and `new` is a valid phone, it is a pure addition: the original
list with `new` appended. -/
theorem edit_phone_spec (phones : List String) (oldPhone newPhone : String) :
    edit_phone phones oldPhone newPhone =
      add_phone (remove_phone phones oldPhone) newPhone ∧
    (oldPhone ∉ phones → Phone.init newPhone = .ok newPhone →
      edit_phone phones oldPhone newPhone = .ok (phones ++ [newPhone])) := by
  refine ⟨rfl, fun hmem hval => ?_⟩
  rw [edit_phone, remove_phone_not_mem phones oldPhone hmem, add_phone, hval]

/-- Witness for C7: editing an absent old phone in a one-element list
appends the new phone. -/
theorem edit_phone_spec_witness :
    edit_phone ["1234567890"] "0000000000" "9999999999" =
      .ok ["1234567890", "9999999999"] :=
  (edit_phone_spec ["1234567890"] "0000000000" "9999999999").2 (by decide) (by rfl)

/-! ### C8: `AddressBook.delete` -/

/-- A stored `Record`: its name value and the values of its phones. -/
structure RecordV where
  name : String
  phones : List String
deriving DecidableEq, Repr

/-- `AddressBook.data`: a Python dict from name string to record
(insertion-ordered association list, keys unique). -/
abbrev Book := List (String × RecordV)

/-- `self.data.get(name)` on the book. -/
def bookGet (b : Book) (k : String) : Option RecordV :=
  match b with
  | [] => none
  | (k1, v1) :: rest => if k1 = k then some v1 else bookGet rest k

/-- Python `del self.data[name]`: remove the binding of `name` (a dict has
at most one). -/
def bookDel (b : Book) (k : String) : Book :=
  match b with
  | [] => []
  | (k1, v1) :: rest => if k1 = k then rest else (k1, v1) :: bookDel rest k

/-- `AddressBook.delete`: delete the entry when `name in self.data`, else
raise `KeyError`. -/
def AddressBook.delete (book : Book) (name : String) : Except PyError Book :=
  if (bookGet book name).isSome then .ok (bookDel book name)
  else .error (.keyError name)

/-- A key outside the key list is not found. -/
theorem bookGet_eq_none_of_not_mem (b : Book) (k : String)
    (h : k ∉ b.map Prod.fst) : bookGet b k = none := by
  induction b with
  | nil => rfl
  | cons p rest ih =>
    obtain ⟨k1, v1⟩ := p
    simp only [List.map_cons, List.mem_cons, not_or] at h
    simp [bookGet, Ne.symm h.1, ih h.2]

/-- With unique keys, the deleted key is gone. -/
theorem bookGet_bookDel_self (b : Book) (k : String)
    (hnodup : (b.map Prod.fst).Nodup) :
    bookGet (bookDel b k) k = none := by
  induction b with
  | nil => rfl
  | cons p rest ih =>
    obtain ⟨k1, v1⟩ := p
    simp only [List.map_cons, List.nodup_cons] at hnodup
    by_cases hk : k1 = k
    · subst hk
      simp only [bookDel, if_pos rfl]
      exact bookGet_eq_none_of_not_mem rest k1 hnodup.1
    · simp [bookDel, hk, bookGet, ih hnodup.2]

/-- Deletion leaves every other key unchanged. -/
theorem bookGet_bookDel_other (b : Book) (k k2 : String) (h : k2 ≠ k) :
    bookGet (bookDel b k) k2 = bookGet b k2 := by
  induction b with
  | nil => rfl
  | cons p rest ih =>
    obtain ⟨k1, v1⟩ := p
    by_cases hk : k1 = k
    · subst hk
      simp [bookDel, bookGet, Ne.symm h]
    · simp [bookDel, hk, bookGet, ih]

/-- C8: on a book with unique keys (the dict invariant),
`AddressBook.delete(name)` removes exactly the entry for `name` when it is
present, and raises the not-found `KeyError` — leaving the book unchanged —
when it is absent. -/
theorem addressbook_delete_spec (book : Book) (name : String)
    (hnodup : (book.map Prod.fst).Nodup) :
    ((bookGet book name).isSome →
      AddressBook.delete book name = .ok (bookDel book name) ∧
      bookGet (bookDel book name) name = none ∧
      ∀ k, k ≠ name → bookGet (bookDel book name) k = bookGet book k) ∧
    (bookGet book name = none →
      AddressBook.delete book name = .error (.keyError name)) := by
  constructor
  · intro h
    refine ⟨by simp [AddressBook.delete, h], bookGet_bookDel_self book name hnodup, ?_⟩
    intro k hk
    exact bookGet_bookDel_other book name k hk
  · intro h
    simp [AddressBook.delete, h]

/-- Witness for C8: deleting a present name removes it; deleting from the
emptied book fails with `KeyError`. -/
theorem addressbook_delete_spec_witness :
    AddressBook.delete [("dave", ⟨"dave", ["1234567890"]⟩)] "dave" = .ok [] ∧
    AddressBook.delete [] "dave" = .error (.keyError "dave") :=
  ⟨by simpa using
      ((addressbook_delete_spec [("dave", ⟨"dave", ["1234567890"]⟩)] "dave"
        (by decide)).1 (by decide)).1,
   (addressbook_delete_spec [] "dave" (by decide)).2 (by decide)⟩

/-! ### Character-class lemmas for lower-casing -/

/-- Whitespace characters have code points below 33. -/
theorem ws_toNat_lt (d : Char) (h : d.isWhitespace = true) : d.toNat < 33 := by
  simp only [Char.isWhitespace, Bool.or_eq_true, decide_eq_true_eq] at h
  rcases h with ((hc | hc) | hc) | hc <;> subst hc <;> decide

/-- Decimal digits have code points 48 through 57. -/
theorem digit_toNat_bounds (c : Char) (h : c.isDigit = true) :
    48 ≤ c.toNat ∧ c.toNat ≤ 57 := by
  simp only [Char.isDigit, Bool.and_eq_true, decide_eq_true_eq, ge_iff_le] at h
  obtain ⟨h1, h2⟩ := h
  have g1 : (48 : UInt32).toNat ≤ c.val.toNat := h1
  have g2 : c.val.toNat ≤ (57 : UInt32).toNat := h2
  have e1 : (48 : UInt32).toNat = 48 := by decide
  have e2 : (57 : UInt32).toNat = 57 := by decide
  exact ⟨e1 ▸ g1, e2 ▸ g2⟩

/-- A character built from a lowercase-letter code point is not whitespace. -/
theorem ofNat_letter_not_ws (n : Nat) (h1 : 97 ≤ n) (h2 : n ≤ 122) :
    (Char.ofNat n).isWhitespace = false := by
  have hv : n.isValidChar := Or.inl (by omega)
  have ht : (Char.ofNat n).toNat = n := by
    rw [Char.ofNat, dif_pos hv]
    simp [Char.ofNatAux, Char.toNat, UInt32.toNat, BitVec.toNat_ofNatLt]
  cases hw : (Char.ofNat n).isWhitespace with
  | false => rfl
  | true =>
    exfalso
    have := ws_toNat_lt _ hw
    omega

/-- `Char.toLower` maps whitespace to whitespace and non-whitespace to
non-whitespace. -/
theorem isWhitespace_toLower (c : Char) :
    (Char.toLower c).isWhitespace = c.isWhitespace := by
  simp only [Char.toLower]
  by_cases h : c.toNat ≥ 65 ∧ c.toNat ≤ 90
  · rw [if_pos h]
    have hlow : (Char.ofNat (c.toNat + 32)).isWhitespace = false :=
      ofNat_letter_not_ws _ (by omega) (by omega)
    have hc : c.isWhitespace = false := by
      cases hw : c.isWhitespace with
      | false => rfl
      | true => exact absurd (ws_toNat_lt c hw) (by omega)
    rw [hlow, hc]
  · rw [if_neg h]

/-- `Char.toLower` fixes decimal digits. -/
theorem toLower_digit (c : Char) (h : c.isDigit = true) : Char.toLower c = c := by
  simp only [Char.toLower]
  rw [if_neg]
  have := digit_toNat_bounds c h
  omega

/-! ### `takeWhile` / `dropWhile` lemmas for word splitting -/

/-- `takeWhile` passes over a fully satisfying prefix. -/
theorem takeWhile_append_sat (p : Char → Bool) (w l : List Char)
    (hw : ∀ c ∈ w, p c = true) : (w ++ l).takeWhile p = w ++ l.takeWhile p := by
  induction w with
  | nil => simp
  | cons c rest ih =>
    have hc : p c = true := hw c (by simp)
    simp only [List.cons_append, List.takeWhile_cons, hc, if_true]
    rw [ih fun x hx => hw x (List.mem_cons_of_mem c hx)]

/-- `dropWhile` consumes a fully satisfying prefix. -/
theorem dropWhile_append_sat (p : Char → Bool) (w l : List Char)
    (hw : ∀ c ∈ w, p c = true) : (w ++ l).dropWhile p = l.dropWhile p := by
  induction w with
  | nil => simp
  | cons c rest ih =>
    have hc : p c = true := hw c (by simp)
    simp only [List.cons_append, List.dropWhile_cons, hc, if_true]
    exact ih fun x hx => hw x (List.mem_cons_of_mem c hx)

/-- `takeWhile` stops immediately when the head fails the predicate. -/
theorem takeWhile_head_stop (p : Char → Bool) (l : List Char)
    (h : ∀ c, l.head? = some c → p c = false) : l.takeWhile p = [] := by
  cases l with
  | nil => rfl
  | cons c rest => simp [List.takeWhile_cons, h c rfl]

/-- `dropWhile` drops nothing when the head fails the predicate. -/
theorem dropWhile_head_stop (p : Char → Bool) (l : List Char)
    (h : ∀ c, l.head? = some c → p c = false) : l.dropWhile p = l := by
  cases l with
  | nil => rfl
  | cons c rest => simp [List.dropWhile_cons, h c rfl]

/-- `dropWhile` consumes a fully satisfying list. -/
theorem dropWhile_all_sat (p : Char → Bool) (l : List Char)
    (h : ∀ c ∈ l, p c = true) : l.dropWhile p = [] := by
  have := dropWhile_append_sat p l [] h
  simpa using this

/-- `pyStripList` is the identity when neither end is whitespace. -/
theorem pyStripList_id (l : List Char)
    (h1 : ∀ c, l.head? = some c → c.isWhitespace = false)
    (h2 : ∀ c, l.getLast? = some c → c.isWhitespace = false) :
    pyStripList l = l := by
  unfold pyStripList
  rw [dropWhile_head_stop _ l h1,
    dropWhile_head_stop _ l.reverse
      (fun c hc => h2 c (by rwa [List.head?_reverse] at hc)),
    List.reverse_reverse]

/-! ### Word-splitting lemmas -/

/-- Leading whitespace is skipped. -/
theorem splitWords_cons_ws (c : Char) (l : List Char) (h : c.isWhitespace = true) :
    splitWords (c :: l) = splitWords l := by
  rw [splitWords]
  simp [h]

/-- An all-whitespace line has no words. -/
theorem splitWords_all_ws (l : List Char) (h : ∀ c ∈ l, c.isWhitespace = true) :
    splitWords l = [] := by
  induction l with
  | nil => rw [splitWords]
  | cons c rest ih =>
    rw [splitWords_cons_ws c rest (h c (by simp))]
    exact ih fun x hx => h x (List.mem_cons_of_mem c hx)

/-- A maximal non-whitespace run at the front, followed by whitespace (or
the end of the line), is one word. -/
theorem splitWords_word (w l : List Char) (hw : w ≠ [])
    (hnw : ∀ c ∈ w, c.isWhitespace = false)
    (hl : ∀ c, l.head? = some c → c.isWhitespace = true) :
    splitWords (w ++ l) = ⟨w⟩ :: splitWords l := by
  cases w with
  | nil => exact absurd rfl hw
  | cons c wrest =>
    have hc : c.isWhitespace = false := hnw c (by simp)
    have hwrest : ∀ x ∈ wrest, (!x.isWhitespace) = true := fun x hx => by
      simp [hnw x (List.mem_cons_of_mem c hx)]
    rw [List.cons_append, splitWords]
    simp only [hc, Bool.false_eq_true, if_false]
    rw [takeWhile_append_sat _ wrest l hwrest,
      takeWhile_head_stop _ l (fun d hd => by simp [hl d hd]),
      dropWhile_append_sat _ wrest l hwrest,
      dropWhile_head_stop _ l (fun d hd => by simp [hl d hd])]
    simp

/-- The empty line has no words. -/
theorem splitWords_nil : splitWords [] = [] := by rw [splitWords]

/-- One trailing word splits to itself. -/
theorem splitWords_single (w : List Char) (hw : w ≠ [])
    (hnw : ∀ c ∈ w, c.isWhitespace = false) : splitWords w = [⟨w⟩] := by
  have h := splitWords_word w [] hw hnw (by simp)
  rw [List.append_nil] at h
  rw [h, splitWords_nil]

/-- A two-word line splits to its two words. -/
theorem splitWords_two (w1 w2 : List Char) (h1 : w1 ≠ [])
    (hw1 : ∀ c ∈ w1, c.isWhitespace = false) (h2 : w2 ≠ [])
    (hw2 : ∀ c ∈ w2, c.isWhitespace = false) :
    splitWords (w1 ++ ' ' :: w2) = [⟨w1⟩, ⟨w2⟩] := by
  rw [splitWords_word w1 (' ' :: w2) h1 hw1
      (fun c hc => by simp at hc; subst hc; rfl),
    splitWords_cons_ws ' ' w2 (by rfl),
    splitWords_single w2 h2 hw2]

/-- A three-word line splits to its three words. -/
theorem splitWords_three (w1 w2 w3 : List Char) (h1 : w1 ≠ [])
    (hw1 : ∀ c ∈ w1, c.isWhitespace = false) (h2 : w2 ≠ [])
    (hw2 : ∀ c ∈ w2, c.isWhitespace = false) (h3 : w3 ≠ [])
    (hw3 : ∀ c ∈ w3, c.isWhitespace = false) :
    splitWords (w1 ++ ' ' :: (w2 ++ ' ' :: w3)) = [⟨w1⟩, ⟨w2⟩, ⟨w3⟩] := by
  rw [splitWords_word w1 (' ' :: (w2 ++ ' ' :: w3)) h1 hw1
      (fun c hc => by simp at hc; subst hc; rfl),
    splitWords_cons_ws ' ' _ (by rfl),
    splitWords_two w2 w3 h2 hw2 h3 hw3]

/-- Lower-casing fixes an all-digit character list. -/
theorem map_toLower_digits (l : List Char) (h : l.all Char.isDigit = true) :
    l.map Char.toLower = l := by
  induction l with
  | nil => rfl
  | cons c rest ih =>
    simp only [List.all_cons, Bool.and_eq_true] at h
    simp [toLower_digit c h.1, ih h.2]

/-! ### C6: lower-casing and case-insensitive matching -/

/-- C6: every input line is lower-cased before being split into command and
arguments (first conjunct, the shape of `parse_input`); consequently
name matching is case-insensitive: `add name1 phone` inserts the
lower-cased name, and `phone name2` finds it and reports the stored phone
whenever `name1` and `name2` agree up to case. -/
theorem case_insensitive_lookup (name1 name2 phone : String)
    (hn1 : name1.data ≠ []) (hn1w : ∀ c ∈ name1.data, c.isWhitespace = false)
    (hn2 : name2.data ≠ []) (hn2w : ∀ c ∈ name2.data, c.isWhitespace = false)
    (hlen : phone.data.length = 10) (hdig : phone.data.all Char.isDigit = true)
    (hcase : pyLower name1 = pyLower name2) :
    (∀ line : String, parse_input line =
      ((pySplit (pyLower line)).headD "", (pySplit (pyLower line)).tail)) ∧
    processLine [] ("add " ++ name1 ++ " " ++ phone) =
      .continue [(pyLower name1, phone)] [.contactAdded (pyLower name1) phone] ∧
    processLine [(pyLower name1, phone)] ("phone " ++ name2) =
      .continue [(pyLower name1, phone)] [.phoneShown (pyLower name2) phone] := by
  have hpne : phone.data ≠ [] := by
    intro h0
    rw [h0] at hlen
    simp at hlen
  have hphnw : ∀ c ∈ phone.data, c.isWhitespace = false := fun c hc =>
    isDigit_isWhitespace_false c (by
      simp only [List.all_eq_true] at hdig
      exact hdig c hc)
  have hdata1 : ("add " ++ name1 ++ " " ++ phone).data =
      ['a', 'd', 'd'] ++ ' ' :: (name1.data ++ ' ' :: phone.data) := by
    simp only [String.data_append]
    show (['a', 'd', 'd', ' '] ++ name1.data ++ [' ']) ++ phone.data = _
    simp [List.append_assoc]
  have hstrip1 : pyStrip ("add " ++ name1 ++ " " ++ phone) =
      "add " ++ name1 ++ " " ++ phone := by
    unfold pyStrip
    rw [pyStripList_id]
    · intro c hc
      rw [hdata1] at hc
      simp only [List.cons_append, List.head?_cons, Option.some.injEq] at hc
      subst hc
      rfl
    · intro c hc
      rw [String.data_append, List.getLast?_append_of_ne_nil _ hpne] at hc
      exact hphnw c (List.mem_of_mem_getLast? hc)
  have hsplit1 : pySplit (pyLower ("add " ++ name1 ++ " " ++ phone)) =
      ["add", pyLower name1, phone] := by
    unfold pySplit pyLower
    rw [hdata1]
    simp only [List.map_append, List.map_cons, List.map_nil,
      show Char.toLower 'a' = 'a' from by decide,
      show Char.toLower 'd' = 'd' from by decide,
      show Char.toLower ' ' = ' ' from by decide,
      map_toLower_digits phone.data hdig]
    rw [splitWords_three ['a', 'd', 'd'] (name1.data.map Char.toLower) phone.data
      (by decide) (by decide)
      (by simpa using hn1)
      (fun c hc => by
        obtain ⟨d, hd, rfl⟩ := List.mem_map.mp hc
        rw [isWhitespace_toLower]
        exact hn1w d hd)
      hpne hphnw]
  have hdata2 : ("phone " ++ name2).data =
      ['p', 'h', 'o', 'n', 'e'] ++ ' ' :: name2.data := by
    simp only [String.data_append]
    show ['p', 'h', 'o', 'n', 'e', ' '] ++ name2.data = _
    simp
  have hstrip2 : pyStrip ("phone " ++ name2) = "phone " ++ name2 := by
    unfold pyStrip
    rw [pyStripList_id]
    · intro c hc
      rw [hdata2] at hc
      simp only [List.cons_append, List.head?_cons, Option.some.injEq] at hc
      subst hc
      rfl
    · intro c hc
      rw [String.data_append, List.getLast?_append_of_ne_nil _ hn2] at hc
      exact hn2w c (List.mem_of_mem_getLast? hc)
  have hsplit2 : pySplit (pyLower ("phone " ++ name2)) =
      ["phone", pyLower name2] := by
    unfold pySplit pyLower
    rw [hdata2]
    simp only [List.map_append, List.map_cons, List.map_nil,
      show Char.toLower 'p' = 'p' from by decide,
      show Char.toLower 'h' = 'h' from by decide,
      show Char.toLower 'o' = 'o' from by decide,
      show Char.toLower 'n' = 'n' from by decide,
      show Char.toLower 'e' = 'e' from by decide,
      show Char.toLower ' ' = ' ' from by decide]
    rw [splitWords_two ['p', 'h', 'o', 'n', 'e'] (name2.data.map Char.toLower)
      (by decide) (by decide)
      (by simpa using hn2)
      (fun c hc => by
        obtain ⟨d, hd, rfl⟩ := List.mem_map.mp hc
        rw [isWhitespace_toLower]
        exact hn2w d hd)]
  refine ⟨fun _ => rfl, ?_, ?_⟩
  · unfold processLine parse_input
    rw [hstrip1, hsplit1]
    simp [handle_command, add_contact, add_contact_raw, inputError, dictGet, dictSet]
  · unfold processLine parse_input
    rw [hstrip2, hsplit2]
    simp [handle_command, show_phone, show_phone_raw, inputError, dictGet, hcase]

/-- Witness for C6: `Alice` added, then found as `ALICE`. -/
theorem case_insensitive_lookup_witness :
    processLine [] ("add " ++ "Alice" ++ " " ++ "1234567890") =
      .continue [(pyLower "Alice", "1234567890")]
        [.contactAdded (pyLower "Alice") "1234567890"] ∧
    processLine [(pyLower "Alice", "1234567890")] ("phone " ++ "ALICE") =
      .continue [(pyLower "Alice", "1234567890")]
        [.phoneShown (pyLower "ALICE") "1234567890"] := by
  have h := case_insensitive_lookup "Alice" "ALICE" "1234567890"
    (by decide) (by decide) (by decide) (by decide) (by decide) (by decide) (by decide)
  exact ⟨h.2.1, h.2.2⟩

/-! ### C10: empty and whitespace-only lines -/

/-- C10: an empty or whitespace-only line parses to the empty-string command
with no arguments; that command is not in the handler table, so the line
takes the unknown-command error path — the incorrect-command message plus
re-printed help — and the contacts map is unchanged. -/
theorem empty_line_spec (contacts : Contacts) (line : String)
    (h : ∀ c ∈ line.data, c.isWhitespace = true) :
    parse_input (pyStrip line) = ("", []) ∧
    processLine contacts line =
      .continue contacts
        [.errorMsg .incorrectCommand (unknownCommandMsg ""), .helpText] := by
  have hstrip : pyStripList line.data = [] := by
    unfold pyStripList
    rw [dropWhile_all_sat _ _ h]
    rfl
  have hparse : parse_input (pyStrip line) = ("", []) := by
    unfold parse_input pySplit pyLower pyStrip
    rw [hstrip]
    simp [splitWords_nil]
  refine ⟨hparse, ?_⟩
  simp only [processLine, hparse]
  simp [handle_command, inputError, errClass, errDetail]

/-- Witness for C10 at the empty line and a whitespace-only line. -/
theorem empty_line_spec_witness :
    processLine [("bob", "1234567890")] "" =
      .continue [("bob", "1234567890")]
        [.errorMsg .incorrectCommand (unknownCommandMsg ""), .helpText] ∧
    processLine [("bob", "1234567890")] "   " =
      .continue [("bob", "1234567890")]
        [.errorMsg .incorrectCommand (unknownCommandMsg ""), .helpText] :=
  ⟨(empty_line_spec [("bob", "1234567890")] "" (by decide)).2,
   (empty_line_spec [("bob", "1234567890")] "   " (by decide)).2⟩

end AssistantBot
